import Mathlib

/-!
# A verified model of `scripts/download_claude.py`

This file gives a shallow embedding of the release-synchronisation script
`scripts/download_claude.py` and proves the specified properties about it.

Modelling conventions:
* Network behaviour is an explicit oracle: an `HttpResp` for the two
  manifest-source requests and, for each artifact, a function
  `Nat → AttemptResult` giving the outcome of each retry attempt
  (`session.get` + streaming of one attempt of `download_file_with_progress`).
* The filesystem is a function `String → Option FileData`; opening a file in
  `'wb'` mode and writing it fully is `writeFs`, `Path.unlink` is `eraseFs`.
* `hashlib.sha256` is modelled abstractly: the hasher state is the list of
  bytes absorbed so far via `update`, and `hexdigest` applies an arbitrary
  digest function `hashFn : Bytes → String` to the absorbed bytes.  This is
  exactly the incremental-hashing contract hashlib provides.
* Python exceptions that the script raises and catches are explicit
  `Except` / option values; `sys.exit(1)` and process exit codes are data.
* The `asyncio` interleaving itself is modelled once, by the transition
  system `SchedStep` (semaphore acquisition / release); the data flow of the
  tasks is sequentialised, which is sound because distinct tasks write to
  distinct artifact paths and each task's fetch outcome depends only on its
  own oracle.
-/

/-- Bytes of a file, as natural numbers (the value range is irrelevant to the
claims; only equality of byte sequences matters). -/
abbrev Bytes := List Nat

/-- Content of one file on disk: artifact downloads are raw bytes, the small
state files (`.version`, ...) are written as text. -/
inductive FileData where
  | bin (b : Bytes)
  | text (t : String)
deriving DecidableEq

/-- The filesystem: a partial map from paths to file contents. -/
abbrev Fs := String → Option FileData

/-- The empty filesystem. -/
def emptyFs : Fs := fun _ => none

/-- Writing a whole file (`open(path, 'wb')` / `open(path, 'w')` followed by
writing the full content): the previous content of `path` is replaced. -/
def writeFs (path : String) (d : FileData) (fs : Fs) : Fs :=
  fun p => if p = path then some d else fs p

/-- `Path.unlink()`: remove the file at `path`. -/
def eraseFs (path : String) (fs : Fs) : Fs :=
  fun p => if p = path then none else fs p

/-- `open(file_path, 'rb').read()`; the script only reads files it has just
written, so the `none` branch is unreachable in every run we reason about
(Python would raise `FileNotFoundError` there). -/
def readFile (fs : Fs) (path : String) : Bytes :=
  match fs path with
  | some (.bin b) => b
  | some (.text _) => []
  | none => []

theorem writeFs_self (path : String) (d : FileData) (fs : Fs) :
    writeFs path d fs path = some d := by
  simp [writeFs]

theorem writeFs_other (path q : String) (d : FileData) (fs : Fs) (h : q ≠ path) :
    writeFs path d fs q = fs q := by
  simp [writeFs, h]

theorem eraseFs_self (path : String) (fs : Fs) : eraseFs path fs path = none := by
  simp [eraseFs]

theorem eraseFs_other (path q : String) (fs : Fs) (h : q ≠ path) :
    eraseFs path fs q = fs q := by
  simp [eraseFs, h]

/-- Python's `str.lower()`, character-wise (the strings compared are ASCII
hex digests, where per-character lowering is exactly `str.lower()`). -/
def strLower (s : String) : String := ⟨s.data.map Char.toLower⟩

/-- Python's `str.strip()` with no argument: remove leading and trailing
whitespace (for the ASCII texts involved, Lean's `Char.isWhitespace` and
Python's default strip set agree). -/
def strStrip (s : String) : String :=
  ⟨((s.data.dropWhile Char.isWhitespace).reverse.dropWhile
      Char.isWhitespace).reverse⟩

/-! ## Fixed configuration (lines 49–78 of the script) -/

/-- `PLATFORMS`: the fixed platform-key → output-filename table. -/
def PLATFORMS : List (String × String) :=
  [("darwin-arm64", "claude-darwin-arm64"),
   ("darwin-x64", "claude-darwin-x64"),
   ("linux-arm64", "claude-linux-arm64"),
   ("linux-x64", "claude-linux-x64"),
   ("linux-arm64-musl", "claude-linux-arm64-musl"),
   ("linux-x64-musl", "claude-linux-x64-musl"),
   ("win32-x64", "claude-win32-x64.exe")]

/-- `PLATFORM_DISPLAY`: platform-key → display-name table. -/
def PLATFORM_DISPLAY : List (String × String) :=
  [("darwin-arm64", "macOS Apple Silicon"),
   ("darwin-x64", "macOS Intel"),
   ("linux-arm64", "Linux arm64 (glibc)"),
   ("linux-x64", "Linux x64 (glibc)"),
   ("linux-arm64-musl", "Linux arm64 (musl)"),
   ("linux-x64-musl", "Linux x64 (musl)"),
   ("win32-x64", "Windows x64")]

def MAX_RETRIES : Nat := 3

def RETRY_DELAY : Nat := 2

def CHUNK_SIZE : Nat := 8192

/-- `asyncio.Semaphore(7)` in `download_all_platforms`. -/
def SEMAPHORE_LIMIT : Nat := 7

/-- `needle` occurs as a contiguous infix of the list. -/
def listContainsSub (needle : List Char) : List Char → Bool
  | [] => needle.isEmpty
  | c :: t => needle.isPrefixOf (c :: t) || listContainsSub needle t

/-- Python's `needle in haystack` substring test on the underlying character
lists. -/
def strContainsSub (haystack needle : String) : Bool :=
  listContainsSub needle.data haystack.data

/-- `'claude.exe' if 'win32' in platform else 'claude'` (line 230): the name
of the remote binary inside the bucket. -/
def remoteFilename (platform : String) : String :=
  if strContainsSub platform "win32" then "claude.exe" else "claude"

/-- `PLATFORMS.get(platform, filename)` (line 231): table lookup with the
remote binary name as the fallback for unknown keys. -/
def outputFilename (platform : String) : String :=
  ((PLATFORMS.lookup platform).getD (remoteFilename platform))

/-- `OUTPUT_DIR / version / output_filename` (line 233). -/
def outputPath (version platform : String) : String :=
  "releases/" ++ version ++ "/" ++ outputFilename platform

/-! ## The streaming checksum (`calculate_sha256`, lines 112–118) -/

/-- The recursion of `readChunks`, fuelled: every iteration on a non-empty
rest consumes at least one byte (`CHUNK_SIZE > 0`), so fuel equal to the
byte count is always sufficient and the out-of-fuel branch is dead code
(certified by `readChunksF_flatten` below). -/
def readChunksF : Nat → Bytes → List Bytes
  | _, [] => []
  | 0, _ :: _ => []
  | f + 1, b :: bs => (b :: bs).take CHUNK_SIZE :: readChunksF f ((b :: bs).drop CHUNK_SIZE)

/-- `iter(lambda: f.read(8192), b'')`: split a byte sequence into the
successive chunks returned by reading 8192 bytes at a time. -/
def readChunks (b : Bytes) : List Bytes := readChunksF b.length b

/-- `calculate_sha256`: feed the file to the hasher chunk by chunk and return
the digest.  The hasher state is the byte sequence absorbed so far
(`sha256_hash.update(chunk)` appends), and `hexdigest()` is the abstract
digest function `hashFn` applied to everything absorbed. -/
def calculate_sha256 (hashFn : Bytes → String) (fileBytes : Bytes) : String :=
  hashFn ((readChunks fileBytes).foldl (fun absorbed chunk => absorbed ++ chunk) [])

/-- The inline verification comparison of `download_platform` (line 248):
`actual_checksum.lower() == info['checksum'].lower()`. -/
def verifyFile (hashFn : Bytes → String) (fs : Fs) (path expected : String) : Bool :=
  strLower (calculate_sha256 hashFn (readFile fs path)) == strLower expected

/-! ## The artifact fetcher (`download_file_with_progress`, lines 156–206) -/

/-- What one attempt (`session.get` + chunked streaming to disk) of
`download_file_with_progress` does, as decided by the environment:
* `connectFail` — the request itself fails (`session.get` raises or
  `raise_for_status` fires) before `open(output_path, 'wb')` runs, so the
  destination file is untouched;
* `streamFail part` — the file is opened in truncate mode and `part` bytes
  are written before an exception interrupts the stream;
* `ok content` — the file is opened in truncate mode and `content` is
  written completely. -/
inductive AttemptResult where
  | connectFail
  | streamFail (part : Bytes)
  | ok (content : Bytes)
deriving DecidableEq

/-- An attempt that raises an exception (either before or during the write). -/
def AttemptResult.failed : AttemptResult → Bool
  | .connectFail => true
  | .streamFail _ => true
  | .ok _ => false

/-- The bytes written by a fully successful attempt. -/
def AttemptResult.content : AttemptResult → Bytes
  | .ok c => c
  | _ => []

/-- Result of `download_file_with_progress`: the returned boolean, the
filesystem afterwards, how many attempts were actually made, and the
`asyncio.sleep` delays taken between consecutive attempts. -/
structure FetchResult where
  success : Bool
  fs : Fs
  attempts : Nat
  sleeps : List Nat

/-- The `for attempt in range(MAX_RETRIES)` loop of
`download_file_with_progress`.  `attempt` is the current loop index and
`remaining` the number of loop iterations still available (including the
current one); a failed attempt retries after `asyncio.sleep(RETRY_DELAY)`
exactly when further iterations remain (`attempt < MAX_RETRIES - 1`). -/
def fetchAttempts (oracle : Nat → AttemptResult) (path : String) :
    Nat → Nat → Fs → FetchResult
  | _, 0, fs => ⟨false, fs, 0, []⟩
  | attempt, remaining + 1, fs =>
    match oracle attempt with
    | .ok c => ⟨true, writeFs path (.bin c) fs, 1, []⟩
    | .connectFail =>
      if remaining = 0 then ⟨false, fs, 1, []⟩
      else
        let r := fetchAttempts oracle path (attempt + 1) remaining fs
        ⟨r.success, r.fs, r.attempts + 1, RETRY_DELAY :: r.sleeps⟩
    | .streamFail part =>
      let fs1 := writeFs path (.bin part) fs
      if remaining = 0 then ⟨false, fs1, 1, []⟩
      else
        let r := fetchAttempts oracle path (attempt + 1) remaining fs1
        ⟨r.success, r.fs, r.attempts + 1, RETRY_DELAY :: r.sleeps⟩

/-- `download_file_with_progress`: up to `MAX_RETRIES` attempts starting at
attempt index 0.  (`output_path.parent.mkdir(parents=True, exist_ok=True)` is
not modelled: it creates directories only, never file contents.) -/
def download_file_with_progress (oracle : Nat → AttemptResult) (path : String)
    (fs : Fs) : FetchResult :=
  fetchAttempts oracle path 0 MAX_RETRIES fs

theorem fetchAttempts_le (oracle : Nat → AttemptResult) (path : String)
    (attempt remaining : Nat) (fs : Fs) :
    (fetchAttempts oracle path attempt remaining fs).attempts ≤ remaining := by
  induction remaining generalizing attempt fs with
  | zero => simp [fetchAttempts]
  | succ n ih =>
    simp only [fetchAttempts]
    cases oracle attempt with
    | ok c => simp
    | connectFail =>
      by_cases h : n = 0
      · simp [h]
      · simp only [h, if_false]
        have := ih (attempt + 1) fs
        omega
    | streamFail part =>
      by_cases h : n = 0
      · simp [h]
      · simp only [h, if_false]
        have := ih (attempt + 1) (writeFs path (.bin part) fs)
        omega

theorem fetchAttempts_pos (oracle : Nat → AttemptResult) (path : String)
    (attempt n : Nat) (fs : Fs) :
    1 ≤ (fetchAttempts oracle path attempt (n + 1) fs).attempts := by
  simp only [fetchAttempts]
  cases oracle attempt with
  | ok c => simp
  | connectFail =>
    by_cases h : n = 0
    · simp [h]
    · simp [h]
  | streamFail part =>
    by_cases h : n = 0
    · simp [h]
    · simp [h]

theorem fetchAttempts_sleeps (oracle : Nat → AttemptResult) (path : String)
    (attempt remaining : Nat) (fs : Fs) :
    (∀ d ∈ (fetchAttempts oracle path attempt remaining fs).sleeps, d = RETRY_DELAY) ∧
    (fetchAttempts oracle path attempt remaining fs).sleeps.length =
      (fetchAttempts oracle path attempt remaining fs).attempts - 1 := by
  induction remaining generalizing attempt fs with
  | zero => simp [fetchAttempts]
  | succ n ih =>
    simp only [fetchAttempts]
    cases oracle attempt with
    | ok c => simp
    | connectFail =>
      cases n with
      | zero => simp
      | succ m =>
        have h1 := (ih (attempt + 1) fs).1
        have h2 := (ih (attempt + 1) fs).2
        have h3 := fetchAttempts_pos oracle path (attempt + 1) m fs
        simp only [Nat.succ_ne_zero, if_false]
        refine ⟨?_, ?_⟩
        · intro d hd
          simp only [List.mem_cons] at hd
          rcases hd with hd | hd
          · exact hd
          · exact h1 d hd
        · simp only [List.length_cons]
          omega
    | streamFail part =>
      cases n with
      | zero => simp
      | succ m =>
        have h1 := (ih (attempt + 1) (writeFs path (.bin part) fs)).1
        have h2 := (ih (attempt + 1) (writeFs path (.bin part) fs)).2
        have h3 := fetchAttempts_pos oracle path (attempt + 1) m
          (writeFs path (.bin part) fs)
        simp only [Nat.succ_ne_zero, if_false]
        refine ⟨?_, ?_⟩
        · intro d hd
          simp only [List.mem_cons] at hd
          rcases hd with hd | hd
          · exact hd
          · exact h1 d hd
        · simp only [List.length_cons]
          omega

theorem fetchAttempts_frame (oracle : Nat → AttemptResult) (path : String)
    (attempt remaining : Nat) (fs : Fs) (q : String) (h : q ≠ path) :
    (fetchAttempts oracle path attempt remaining fs).fs q = fs q := by
  induction remaining generalizing attempt fs with
  | zero => simp [fetchAttempts]
  | succ n ih =>
    simp only [fetchAttempts]
    cases oracle attempt with
    | ok c => simp [writeFs_other _ _ _ _ h]
    | connectFail =>
      by_cases hn : n = 0
      · simp [hn]
      · simp only [hn, if_false]
        exact ih (attempt + 1) fs
    | streamFail part =>
      by_cases hn : n = 0
      · simp [hn, writeFs_other _ _ _ _ h]
      · simp only [hn, if_false]
        rw [ih (attempt + 1) (writeFs path (.bin part) fs)]
        exact writeFs_other _ _ _ _ h

theorem fetchAttempts_allFail (oracle : Nat → AttemptResult) (path : String)
    (attempt remaining : Nat) (fs : Fs)
    (h : ∀ i, attempt ≤ i → i < attempt + remaining → (oracle i).failed = true) :
    (fetchAttempts oracle path attempt remaining fs).success = false ∧
    (fetchAttempts oracle path attempt remaining fs).attempts = remaining := by
  induction remaining generalizing attempt fs with
  | zero => simp [fetchAttempts]
  | succ n ih =>
    have hcur : (oracle attempt).failed = true := h attempt le_rfl (by omega)
    simp only [fetchAttempts]
    cases hc : oracle attempt with
    | ok c => rw [hc] at hcur; simp [AttemptResult.failed] at hcur
    | connectFail =>
      cases n with
      | zero => simp
      | succ m =>
        have := ih (attempt + 1) fs (fun i h1 h2 => h i (by omega) (by omega))
        simp only [Nat.succ_ne_zero, if_false]
        exact ⟨this.1, by rw [this.2]⟩
    | streamFail part =>
      cases n with
      | zero => simp
      | succ m =>
        have := ih (attempt + 1) (writeFs path (.bin part) fs)
          (fun i h1 h2 => h i (by omega) (by omega))
        simp only [Nat.succ_ne_zero, if_false]
        exact ⟨this.1, by rw [this.2]⟩

/-- If all attempts fail at the connect stage, the destination file is never
opened, so the filesystem is completely untouched. -/
theorem fetchAttempts_connectFail_fs (oracle : Nat → AttemptResult) (path : String)
    (attempt remaining : Nat) (fs : Fs)
    (h : ∀ i, oracle i = .connectFail) :
    (fetchAttempts oracle path attempt remaining fs).fs = fs := by
  induction remaining generalizing attempt fs with
  | zero => simp [fetchAttempts]
  | succ n ih =>
    simp only [fetchAttempts, h attempt]
    by_cases hn : n = 0
    · simp [hn]
    · simp only [hn, if_false]
      exact ih (attempt + 1) fs

/-- A successful fetch ends with a successful attempt whose full content is
the final content of the destination file (the `'wb'` truncate-mode open of
that attempt overwrote any partial content from earlier failed attempts). -/
theorem fetchAttempts_success (oracle : Nat → AttemptResult) (path : String)
    (attempt remaining : Nat) (fs : Fs)
    (h : (fetchAttempts oracle path attempt remaining fs).success = true) :
    ∃ c, oracle (attempt + (fetchAttempts oracle path attempt remaining fs).attempts - 1) =
        .ok c ∧
      (fetchAttempts oracle path attempt remaining fs).fs path = some (.bin c) := by
  induction remaining generalizing attempt fs with
  | zero => simp [fetchAttempts] at h
  | succ n ih =>
    simp only [fetchAttempts] at h ⊢
    cases hc : oracle attempt with
    | ok c =>
      refine ⟨c, ?_, ?_⟩
      · simpa using hc
      · simp [writeFs_self]
    | connectFail =>
      rw [hc] at h
      cases n with
      | zero => simp at h
      | succ m =>
        simp only [Nat.succ_ne_zero, if_false] at h ⊢
        obtain ⟨c, hc1, hc2⟩ := ih (attempt + 1) fs h
        refine ⟨c, ?_, hc2⟩
        have hp := fetchAttempts_pos oracle path (attempt + 1) m fs
        have : attempt + 1 + (fetchAttempts oracle path (attempt + 1) (m + 1) fs).attempts - 1 =
            attempt + ((fetchAttempts oracle path (attempt + 1) (m + 1) fs).attempts + 1) - 1 := by
          omega
        rw [← this]
        exact hc1
    | streamFail part =>
      rw [hc] at h
      cases n with
      | zero => simp at h
      | succ m =>
        simp only [Nat.succ_ne_zero, if_false] at h ⊢
        obtain ⟨c, hc1, hc2⟩ := ih (attempt + 1) (writeFs path (.bin part) fs) h
        refine ⟨c, ?_, hc2⟩
        have : attempt + 1 +
              (fetchAttempts oracle path (attempt + 1) (m + 1)
                (writeFs path (.bin part) fs)).attempts - 1 =
            attempt + ((fetchAttempts oracle path (attempt + 1) (m + 1)
                (writeFs path (.bin part) fs)).attempts + 1) - 1 := by
          omega
        rw [← this]
        exact hc1

/-- If the first `k` attempts raise and attempt `k` succeeds (with `k` within
the retry budget), the fetch succeeds after exactly `k + 1` attempts and the
destination file holds exactly the successful attempt's content. -/
theorem fetchAttempts_firstOk (oracle : Nat → AttemptResult) (path : String)
    (remaining : Nat) (fs : Fs) (k : Nat) (c : Bytes)
    (attempt : Nat)
    (hk : k < remaining)
    (hfail : ∀ i, i < k → (oracle (attempt + i)).failed = true)
    (hok : oracle (attempt + k) = .ok c) :
    (fetchAttempts oracle path attempt remaining fs).success = true ∧
    (fetchAttempts oracle path attempt remaining fs).attempts = k + 1 ∧
    (fetchAttempts oracle path attempt remaining fs).fs path = some (.bin c) := by
  induction remaining generalizing attempt fs k with
  | zero => omega
  | succ n ih =>
    cases k with
    | zero =>
      simp only [Nat.add_zero] at hok
      simp [fetchAttempts, hok, writeFs_self]
    | succ j =>
      have hcur : (oracle attempt).failed = true := by
        have := hfail 0 (by omega)
        simpa using this
      have hn : n ≠ 0 := by omega
      simp only [fetchAttempts]
      cases hc : oracle attempt with
      | ok cc => rw [hc] at hcur; simp [AttemptResult.failed] at hcur
      | connectFail =>
        simp only [hn, if_false]
        have := ih fs j (attempt + 1) (by omega)
          (fun i hi => by
            have := hfail (i + 1) (by omega)
            simpa [Nat.add_assoc, Nat.add_comm 1 i] using this)
          (by
            have : attempt + 1 + j = attempt + (j + 1) := by omega
            rw [this]
            exact hok)
        refine ⟨this.1, ?_, this.2.2⟩
        simp only [this.2.1]
      | streamFail part =>
        simp only [hn, if_false]
        have := ih (writeFs path (.bin part) fs) j (attempt + 1) (by omega)
          (fun i hi => by
            have := hfail (i + 1) (by omega)
            simpa [Nat.add_assoc, Nat.add_comm 1 i] using this)
          (by
            have : attempt + 1 + j = attempt + (j + 1) := by omega
            rw [this]
            exact hok)
        refine ⟨this.1, ?_, this.2.2⟩
        simp only [this.2.1]

theorem foldl_append_eq_join (l : List Bytes) (acc : Bytes) :
    l.foldl (fun absorbed chunk => absorbed ++ chunk) acc = acc ++ l.flatten := by
  induction l generalizing acc with
  | nil => simp
  | cons x xs ih => simp [ih, List.append_assoc]

theorem readChunksF_flatten : ∀ (f : Nat) (b : Bytes), b.length ≤ f →
    (readChunksF f b).flatten = b := by
  intro f
  induction f with
  | zero =>
    intro b hb
    have hb0 : b = [] := List.length_eq_zero.mp (Nat.le_zero.mp hb)
    subst hb0
    rfl
  | succ n ih =>
    intro b hb
    cases b with
    | nil => rfl
    | cons x xs =>
      simp only [List.length_cons] at hb
      simp only [readChunksF, List.flatten_cons]
      rw [ih _ (by
        simp only [CHUNK_SIZE, List.length_drop, List.length_cons]
        omega)]
      exact List.take_append_drop _ _

theorem readChunks_flatten : ∀ b : Bytes, (readChunks b).flatten = b :=
  fun b => readChunksF_flatten b.length b le_rfl

/-- The streaming checksum over 8 KiB chunks computes the digest of the whole
file content: chunking loses nothing. -/
theorem calculate_sha256_eq (hashFn : Bytes → String) (b : Bytes) :
    calculate_sha256 hashFn b = hashFn b := by
  rw [calculate_sha256, foldl_append_eq_join, List.nil_append, readChunks_flatten]

/-! ## The manifest source (`get_latest_version` / `get_manifest`,
lines 121–153) -/

/-- Outcome of one HTTP GET, after aiohttp's automatic redirect following:
either the transport fails (`aiohttp.ClientError` raised by `session.get`),
or a response with an HTTP status code and a decoded body arrives. -/
inductive HttpResp (α : Type) where
  | transportError
  | status (code : Nat) (body : α)

/-- The exceptions of the script's manifest phase, named after the spec's
error taxonomy: `networkError` is an `aiohttp.ClientError` (including the
`ClientResponseError` that `raise_for_status()` raises for HTTP status
≥ 400), and `malformedManifest` is the `KeyError` raised while
`get_manifest` accesses required manifest fields. -/
inductive PyErr where
  | networkError
  | malformedManifest
deriving DecidableEq

/-- `get_latest_version`: one GET to `{GCS_BUCKET}/latest`;
`raise_for_status()` raises exactly for status codes ≥ 400; otherwise the
body is returned stripped of surrounding whitespace.  There is no check
that the stripped body is non-empty. -/
def get_latest_version (resp : HttpResp String) : Except PyErr String :=
  match resp with
  | .transportError => .error .networkError
  | .status code body =>
    if 400 ≤ code then .error .networkError
    else .ok (strStrip body)

/-- One platform entry of the decoded `manifest.json`; `none` models an
absent key (so that indexing it raises `KeyError`). -/
structure RawPlatformInfo where
  size : Option Nat
  checksum : Option String
deriving DecidableEq

/-- The decoded `manifest.json` object.  The `platforms` mapping is the
dict's items in insertion order; a Python dict cannot repeat a key, which is
the `Nodup` hypothesis used by the theorems below. -/
structure RawManifest where
  version : Option String
  buildDate : Option String
  platforms : Option (List (String × RawPlatformInfo))
deriving DecidableEq

/-- The per-entry part of `get_manifest`'s display loop: computing
`format_size(info['size'])` for every platform entry indexes `info['size']`
and therefore raises `KeyError` on the first entry lacking `size`.
(`info['checksum']` is NOT read here.) -/
def checkSizes : List (String × RawPlatformInfo) → Except PyErr Unit
  | [] => .ok ()
  | (_, info) :: rest =>
    match info.size with
    | none => .error .malformedManifest
    | some _ => checkSizes rest

/-- `get_manifest`: one GET to `{GCS_BUCKET}/{version}/manifest.json`,
`raise_for_status()`, JSON decoding, then the success prints index
`manifest['version']`, `manifest['buildDate']`, `manifest['platforms']` and
every entry's `info['size']` — those are all the fields it validates.  The
raw manifest object itself is returned. -/
def get_manifest (resp : HttpResp RawManifest) : Except PyErr RawManifest :=
  match resp with
  | .transportError => .error .networkError
  | .status code m =>
    if 400 ≤ code then .error .networkError
    else
      match m.version with
      | none => .error .malformedManifest
      | some _ =>
        match m.buildDate with
        | none => .error .malformedManifest
        | some _ =>
          match m.platforms with
          | none => .error .malformedManifest
          | some ps =>
            match checkSizes ps with
            | .error e => .error e
            | .ok _ => .ok m

/-! ## Per-platform task (`download_platform`, lines 209–256) -/

/-- The terminal status of one platform's fetch+verify task.  The script
returns a tuple `(success, platform, message)`; the three constructors mirror
its three `return` statements, and `checksumMismatch` additionally carries
the expected and actual digests that the script reports via the two
`print_error` diagnostic lines (lines 253–254). -/
inductive Status where
  | success
  | fetchFailed
  | checksumMismatch (expected actual : String)
deriving DecidableEq

/-- The first component of the returned tuple: `True` exactly for the
verified-success return. -/
def Status.toBool : Status → Bool
  | .success => true
  | _ => false

/-- One task's `(success, platform, message)` return value. -/
structure TaskResult where
  status : Status
  platform : String
  message : String
deriving DecidableEq

/-- How one task ends: with a returned `TaskResult`, or by raising an
uncaught exception (`KeyError` when the manifest entry lacks `size` or
`checksum`).  Both carry the filesystem as the task left it. -/
inductive TaskRun where
  | done (r : TaskResult) (fs : Fs)
  | raised (msg : String) (fs : Fs)

def TaskRun.statusOf : TaskRun → Option Status
  | .done r _ => some r.status
  | .raised _ _ => none

def TaskRun.fsOf : TaskRun → Fs
  | .done _ fs => fs
  | .raised _ fs => fs

/-- `download_platform`: fetch one platform's binary and verify its checksum.
The semaphore acquisition around the body is modelled by the `SchedStep`
transition system below; here the body's data flow is given.  Note the order
of operations: `info['size']` is indexed before the fetch (line 238),
`info['checksum']` only after a successful fetch (line 248). -/
def download_platform (hashFn : Bytes → String) (version platform : String)
    (info : RawPlatformInfo) (oracle : Nat → AttemptResult) (fs : Fs) : TaskRun :=
  let output_filename := outputFilename platform
  let output_path := outputPath version platform
  match info.size with
  | none => .raised "KeyError: size" fs
  | some _ =>
    let fr := download_file_with_progress oracle output_path fs
    if fr.success = false then
      .done ⟨.fetchFailed, platform, "下载失败: " ++ output_filename⟩ fr.fs
    else
      let actual_checksum := calculate_sha256 hashFn (readFile fr.fs output_path)
      match info.checksum with
      | none => .raised "KeyError: checksum" fr.fs
      | some expected =>
        if strLower actual_checksum == strLower expected then
          .done ⟨.success, platform, actual_checksum ++ "  " ++ output_filename⟩ fr.fs
        else
          .done ⟨.checksumMismatch expected actual_checksum, platform,
                 "校验失败: " ++ output_filename⟩ (eraseFs output_path fr.fs)

/-! ## The orchestrator (`download_all_platforms`, lines 259–304) -/

/-- Result of `download_all_platforms`: the per-platform results in task
order (the script keys them by platform in a dict; the manifest's keys are
unique, so the list below carries the same information), the collected
checksum lines, the success/total counts, whether `sys.exit(1)` fired, an
uncaught task exception if one propagated out of `asyncio.gather`, and the
filesystem. -/
structure AllResult where
  results : List TaskResult
  checksums : List String
  successCount : Nat
  totalCount : Nat
  sysExit : Option Nat
  raised : Option String
  fs : Fs

/-- The fan-out of `asyncio.gather` over `download_platform` tasks,
sequentialised in manifest order: each task owns a distinct destination file
and its fetch outcome depends only on its own oracle, so this determinizes
the interleaving without changing any per-task outcome.  When a task raises,
the exception propagates out of `gather` (the effects of tasks that have not
completed are not modelled — the event loop cancels them when `asyncio.run`
unwinds). -/
def runTasks (hashFn : Bytes → String) (version : String) :
    List (String × RawPlatformInfo) → (String → Nat → AttemptResult) → Fs →
    List TaskResult × Option String × Fs
  | [], _, fs => ([], none, fs)
  | (platform, info) :: rest, oracle, fs =>
    match download_platform hashFn version platform info (oracle platform) fs with
    | .raised msg fs1 => ([], some msg, fs1)
    | .done r fs1 =>
      let (rs, err, fs2) := runTasks hashFn version rest oracle fs1
      (r :: rs, err, fs2)

/-- `download_all_platforms`: run one task per entry of
`manifest.get('platforms', {})`, then aggregate.  `success_count` counts the
`True` first components, `total_count = len(results)`, and
`sys.exit(1)` fires iff `success_count < total_count`.  When a task's
exception propagates, none of the aggregation code runs (the `raised` field
records the exception and the placeholder zero counts are never observed). -/
def download_all_platforms (hashFn : Bytes → String) (version : String)
    (manifest : RawManifest) (oracle : String → Nat → AttemptResult)
    (fs : Fs) : AllResult :=
  let platforms := manifest.platforms.getD []
  let (completed, err, fs1) := runTasks hashFn version platforms oracle fs
  match err with
  | some msg =>
    { results := completed, checksums := [], successCount := 0,
      totalCount := 0, sysExit := none, raised := some msg, fs := fs1 }
  | none =>
    let checksums := (completed.filter (fun r => r.status.toBool)).map
      (fun r => r.message)
    let success_count := completed.countP (fun r => r.status.toBool)
    let total_count := completed.length
    { results := completed, checksums := checksums,
      successCount := success_count, totalCount := total_count,
      sysExit := if success_count < total_count then some 1 else none,
      raised := none, fs := fs1 }

/-! ## Changelog handling (`download_changelog` / `parse_changelog` /
`extract_latest_updates`, lines 307–404) -/

/-- A parsed CHANGELOG entry (`ChangelogEntry` TypedDict). -/
structure ChangelogEntry where
  version : String
  content : String
deriving DecidableEq

/-- `download_changelog`: fetch `CHANGELOG.md` to
`releases/{version}/CHANGELOG.md` with the shared fetcher; the boolean is
whether the download succeeded (on `False` the script raises `RuntimeError`,
which `main_async` catches). -/
def download_changelog (oracle : Nat → AttemptResult) (version : String)
    (fs : Fs) : Bool × String × Fs :=
  let output_path := "releases/" ++ version ++ "/CHANGELOG.md"
  let r := download_file_with_progress oracle output_path fs
  (r.success, output_path, r.fs)

/-- `re.match(r'^##\s+([0-9.]+)', line)`: the line must start with `##`,
then one or more whitespace characters, then the captured group is the
maximal nonempty run of characters in `[0-9.]`.  (Python's `\s` on `str`
also accepts some rarer Unicode whitespace; for the ASCII changelog format
the classes agree.) -/
def versionMatch (line : String) : Option String :=
  if line.startsWith "##" then
    let rest := line.drop 2
    let ws := rest.takeWhile Char.isWhitespace
    if ws.isEmpty then none
    else
      let after := rest.drop ws.length
      let ver := after.takeWhile (fun c => ('0' ≤ c && c ≤ '9') || c = '.')
      if ver.isEmpty then none else some ver
  else none

/-- The line loop of `parse_changelog`: `cur` is `current_version`,
`curContent` is `current_content`, `acc` the accumulated list; a version
header flushes the previous entry, other lines accumulate once a version has
been seen. -/
def parseLines : List String → Option String → List String →
    List ChangelogEntry → List ChangelogEntry
  | [], cur, curContent, acc =>
    match cur with
    | some v => acc ++ [⟨v, strStrip (String.intercalate "\n" curContent)⟩]
    | none => acc
  | line :: rest, cur, curContent, acc =>
    match versionMatch line with
    | some v =>
      match cur with
      | some cv =>
        parseLines rest (some v) [line]
          (acc ++ [⟨cv, strStrip (String.intercalate "\n" curContent)⟩])
      | none => parseLines rest (some v) [line] acc
    | none =>
      match cur with
      | some _ => parseLines rest cur (curContent ++ [line]) acc
      | none => parseLines rest none curContent acc

/-- `parse_changelog` on the text of an already-read file (the
`OSError`-returns-`[]` branch is subsumed by the download-failure path of
`main_async`, which never calls the parser). -/
def parse_changelog (content : String) : List ChangelogEntry :=
  parseLines (content.splitOn "\n") none [] []

/-- `extract_latest_updates`: `versions[:count]`. -/
def extract_latest_updates (versions : List ChangelogEntry) (count : Nat) :
    List ChangelogEntry :=
  versions.take count

/-! ## Reporting and state files (`generate_release_notes` /
`save_version_info`, lines 407–503) -/

/-- `generate_release_notes`: pure string formatting. -/
def generate_release_notes (version build_date : String)
    (checksums : List String) (latest_updates : List ChangelogEntry) : String :=
  let header := "## Claude Code v" ++ version ++ "\n\n**构建日期**: " ++
    build_date ++ "\n\n"
  let updates :=
    if latest_updates.isEmpty then ""
    else "### 最新更新\n\n" ++
      String.join (latest_updates.map (fun u => u.content ++ "\n\n---\n\n"))
  let tableRows := String.join (PLATFORM_DISPLAY.map (fun kv =>
    let filename := (PLATFORMS.lookup kv.1).getD kv.1
    "| " ++ kv.2 ++ " | `" ++ filename ++ "` |\n"))
  let table := "### 下载平台\n\n| 平台 | 文件 |\n|------|------|\n" ++
    tableRows ++ "\n"
  let sums := "### SHA256 Checksums\n\n```\n" ++
    String.intercalate "\n" checksums ++ "\n```\n\n"
  header ++ updates ++ table ++ sums ++ "---\n*此版本自动从官方 GCS 存储桶同步*\n"

/-- Models `json.dump(latest_updates, f, ...)`: some injective serialisation
of the entry list (its exact shape is irrelevant to every claim; only
whether the file is written matters). -/
def renderUpdates (updates : List ChangelogEntry) : String :=
  String.join (updates.map (fun u => u.version ++ "\x1f" ++ u.content ++ "\x1e"))

/-- `save_version_info`: writes `.version`, `.build_date` and `.checksums`
unconditionally; writes `.latest_updates` and `.release_notes` only when
`latest_updates` is a non-empty list (`if latest_updates:`).  `build_date`
is `manifest['buildDate']`, whose presence `get_manifest` already
validated. -/
def save_version_info (version build_date : String) (checksums : List String)
    (latest_updates : List ChangelogEntry) (fs : Fs) : Fs :=
  let fs1 := writeFs ".version" (.text version) fs
  let fs2 := writeFs ".build_date" (.text build_date) fs1
  let fs3 := writeFs ".checksums" (.text (String.intercalate "\n" checksums)) fs2
  if latest_updates.isEmpty then fs3
  else
    let fs4 := writeFs ".latest_updates" (.text (renderUpdates latest_updates)) fs3
    writeFs ".release_notes"
      (.text (generate_release_notes version build_date checksums latest_updates)) fs4

/-! ## The top level (`main_async`, lines 506–556) -/

/-- Result of the whole run: process exit code and final filesystem. -/
structure MainResult where
  exitCode : Nat
  fs : Fs

/-- `main_async`, as a function of the network environment:
`latestResp`/`manifestResp` are the two manifest-source responses,
`oracle` the per-platform per-attempt fetch outcomes, `chOracle` the
CHANGELOG fetch attempts, and `dec` the UTF-8 decoding used when the parser
reads the changelog file back.  A top-level `aiohttp.ClientError` or any
other exception is caught and turns into `sys.exit(1)`; `sys.exit(1)`
inside `download_all_platforms` raises `SystemExit`, which `except
Exception` does not catch, so it also terminates the process with status 1.
A fully successful run returns normally: exit code 0. -/
def main_async (hashFn : Bytes → String) (dec : Bytes → String)
    (latestResp : HttpResp String) (manifestResp : HttpResp RawManifest)
    (oracle : String → Nat → AttemptResult) (chOracle : Nat → AttemptResult)
    (fs0 : Fs) : MainResult :=
  match get_latest_version latestResp with
  | .error _ => ⟨1, fs0⟩
  | .ok version =>
    match get_manifest manifestResp with
    | .error _ => ⟨1, fs0⟩
    | .ok manifest =>
      let allr := download_all_platforms hashFn version manifest oracle fs0
      match allr.raised with
      | some _ => ⟨1, allr.fs⟩
      | none =>
        match allr.sysExit with
        | some _ => ⟨1, allr.fs⟩
        | none =>
          let cr := download_changelog chOracle version allr.fs
          let latest_updates :=
            if cr.1 then
              let versions := parse_changelog (dec (readFile cr.2.2 cr.2.1))
              if versions.isEmpty then []
              else extract_latest_updates versions 3
            else []
          let fs2 := save_version_info version (manifest.buildDate.getD "")
            allr.checksums latest_updates cr.2.2
          ⟨0, fs2⟩

/-! ## The concurrency bound (`asyncio.Semaphore(7)`, lines 229 and 276)

`download_all_platforms` creates one task per platform and a semaphore of
capacity 7; every task's body is `async with semaphore: <fetch+verify>`.
The transition system below is the embedding of that scheduling structure:
a task is `pending` until the `async with` acquires a permit, `running`
while it is inside the fetch+verify body (the spec's "Fetching" state), and
`finished` once the body completes — by returning or by raising, since
`async with` releases the permit on both paths. -/

inductive TaskState where
  | pending
  | running
  | finished
deriving DecidableEq

/-- Number of tasks currently inside the semaphore-guarded body; the
semaphore's internal counter is `k - countRunning ts` whenever it is
non-negative. -/
def countRunning (ts : List TaskState) : Nat :=
  ts.countP (fun s => s == TaskState.running)

/-- One scheduler step with semaphore capacity `k`:
* `acquire` — `async with semaphore` lets a pending task enter its body,
  which the semaphore allows only while fewer than `k` permits are held;
* `release` — a running task's body completes (returns **or** raises) and
  the `async with` exit releases the permit. -/
inductive SchedStep (k : Nat) : List TaskState → List TaskState → Prop
  | acquire (ts : List TaskState) (i : Nat)
      (hi : ts.get? i = some .pending)
      (hcap : countRunning ts < k) :
      SchedStep k ts (ts.set i .running)
  | release (ts : List TaskState) (i : Nat)
      (hi : ts.get? i = some .running) :
      SchedStep k ts (ts.set i .finished)

theorem countP_set (p : TaskState → Bool) (ts : List TaskState)
    (i : Nat) (a b : TaskState) (h : ts.get? i = some a) :
    (ts.set i b).countP p + (if p a then 1 else 0) =
      ts.countP p + (if p b then 1 else 0) := by
  induction ts generalizing i with
  | nil => simp at h
  | cons x xs ih =>
    cases i with
    | zero =>
      simp only [List.get?] at h
      injection h with h
      subst h
      simp only [List.set]
      by_cases hb : p b <;> by_cases hx : p x <;>
        simp [List.countP_cons, hb, hx]
    | succ j =>
      simp only [List.get?] at h
      simp only [List.set]
      by_cases hx : p x <;>
        · simp only [List.countP_cons, hx]
          have := ih j h
          omega

theorem countP_set_add (p : TaskState → Bool) (ts : List TaskState)
    (i : Nat) (a b : TaskState) (h : ts.get? i = some a)
    (hpa : p a = false) (hpb : p b = true) :
    (ts.set i b).countP p = ts.countP p + 1 := by
  have e := countP_set p ts i a b h
  rw [hpa, hpb] at e
  simpa using e

theorem countP_set_sub (p : TaskState → Bool) (ts : List TaskState)
    (i : Nat) (a b : TaskState) (h : ts.get? i = some a)
    (hpa : p a = true) (hpb : p b = false) :
    (ts.set i b).countP p + 1 = ts.countP p := by
  have e := countP_set p ts i a b h
  rw [hpa, hpb] at e
  simpa using e

/-- One scheduler step preserves the permit bound. -/
theorem schedStep_preserve (k : Nat) (ts ts' : List TaskState)
    (h : SchedStep k ts ts') (hle : countRunning ts ≤ k) :
    countRunning ts' ≤ k := by
  cases h with
  | acquire i hi hcap =>
    have e := countP_set_add (fun s => s == TaskState.running) ts i .pending
      .running hi (by decide) (by decide)
    simp only [countRunning] at hcap ⊢
    omega
  | release i hi =>
    have e := countP_set_sub (fun s => s == TaskState.running) ts i .running
      .finished hi (by decide) (by decide)
    simp only [countRunning] at hle ⊢
    omega

/-- The semaphore invariant: starting from all tasks pending, every
reachable scheduler state has at most `k` tasks simultaneously inside the
fetch+verify body. -/
theorem countRunning_le (k n : Nat) (ts : List TaskState)
    (h : Relation.ReflTransGen (SchedStep k) (List.replicate n .pending) ts) :
    countRunning ts ≤ k := by
  induction h with
  | refl =>
    have hz : countRunning (List.replicate n TaskState.pending) = 0 := by
      rw [countRunning, List.countP_eq_zero]
      intro a ha
      have := List.eq_of_mem_replicate ha
      subst this
      decide
    omega
  | tail _ step ih => exact schedStep_preserve _ _ _ step ih

/-! ## Path disjointness helpers -/

theorem stringAppendCancelLeft {p a b : String} (h : p ++ a = p ++ b) : a = b := by
  apply String.ext
  have hd := congrArg String.data h
  rw [String.data_append, String.data_append] at hd
  exact List.append_cancel_left hd

/-- Every path under `releases/` is distinct from every dot-file path. -/
theorem releases_ne_dot (x y : String) : "releases/" ++ x ≠ "." ++ y := by
  intro h
  have hd := congrArg String.data h
  rw [String.data_append, String.data_append] at hd
  rw [show "releases/".data = ['r','e','l','e','a','s','e','s','/'] from rfl,
    show ".".data = ['.'] from rfl] at hd
  simp at hd

theorem outputPath_eq (version platform : String) :
    outputPath version platform =
      "releases/" ++ (version ++ ("/" ++ outputFilename platform)) := by
  simp [outputPath, String.append_assoc]

theorem outputPath_ne_dot (version platform y : String) :
    outputPath version platform ≠ "." ++ y := by
  rw [outputPath_eq]
  exact releases_ne_dot _ _

theorem changelogPath_ne_dot (version y : String) :
    "releases/" ++ version ++ "/CHANGELOG.md" ≠ "." ++ y := by
  rw [String.append_assoc]
  exact releases_ne_dot _ _

/-- Distinct output filenames give distinct output paths for the same
version. -/
theorem outputPath_ne_of_filename_ne (version pa pb : String)
    (h : outputFilename pa ≠ outputFilename pb) :
    outputPath version pa ≠ outputPath version pb := by
  rw [outputPath_eq, outputPath_eq]
  intro he
  exact h (stringAppendCancelLeft (stringAppendCancelLeft
    (stringAppendCancelLeft he)))

/-! ## Orchestrator helper lemmas -/

/-- A task whose manifest entry carries both `size` and `checksum` never
raises: it always returns a `(success, platform, message)` tuple for its own
platform key. -/
theorem download_platform_done (hashFn : Bytes → String)
    (version platform : String) (info : RawPlatformInfo)
    (oracle : Nat → AttemptResult) (fs : Fs)
    (hsz : info.size.isSome) (hck : info.checksum.isSome) :
    ∃ r fs', download_platform hashFn version platform info oracle fs =
        .done r fs' ∧ r.platform = platform := by
  obtain ⟨sz, hsz⟩ := Option.isSome_iff_exists.mp hsz
  obtain ⟨ck, hck⟩ := Option.isSome_iff_exists.mp hck
  rw [download_platform]
  simp only [hsz, hck]
  by_cases hf : (download_file_with_progress oracle
      (outputPath version platform) fs).success = false
  · simp only [hf, if_true]
    exact ⟨_, _, rfl, rfl⟩
  · simp only [hf, if_false]
    by_cases hcmp : strLower (calculate_sha256 hashFn
        (readFile (download_file_with_progress oracle
          (outputPath version platform) fs).fs
          (outputPath version platform))) == strLower ck
    · simp only [hcmp, if_true]
      exact ⟨_, _, rfl, rfl⟩
    · simp only [Bool.not_eq_true] at hcmp
      simp only [hcmp, if_false]
      exact ⟨_, _, rfl, rfl⟩

/-- A task only ever touches its own destination file. -/
theorem download_platform_frame (hashFn : Bytes → String)
    (version platform : String) (info : RawPlatformInfo)
    (oracle : Nat → AttemptResult) (fs : Fs) (q : String)
    (hq : q ≠ outputPath version platform) :
    (download_platform hashFn version platform info oracle fs).fsOf q = fs q := by
  rw [download_platform]
  cases info.size with
  | none => simp [TaskRun.fsOf]
  | some sz =>
    simp only
    have hfr := fetchAttempts_frame oracle (outputPath version platform) 0
      MAX_RETRIES fs q hq
    by_cases hf : (download_file_with_progress oracle
        (outputPath version platform) fs).success = false
    · simp only [hf, if_true, TaskRun.fsOf]
      exact hfr
    · simp only [hf, if_false]
      cases info.checksum with
      | none => simpa [TaskRun.fsOf] using hfr
      | some ck =>
        by_cases hcmp : strLower (calculate_sha256 hashFn
            (readFile (download_file_with_progress oracle
              (outputPath version platform) fs).fs
              (outputPath version platform))) == strLower ck
        · simpa [hcmp, TaskRun.fsOf] using hfr
        · simp only [Bool.not_eq_true] at hcmp
          simp only [hcmp, Bool.false_eq_true, if_false, hf,
            Bool.true_eq_false, TaskRun.fsOf]
          rw [eraseFs_other _ _ _ hq]
          exact hfr

/-- With a well-formed manifest (every entry has `size` and `checksum` —
which is what the spec's data model guarantees for `PlatformSpec`), the
fan-out raises no exception and yields exactly one result per platform key,
in manifest order. -/
theorem runTasks_platforms (hashFn : Bytes → String) (version : String)
    (platforms : List (String × RawPlatformInfo))
    (oracle : String → Nat → AttemptResult) (fs : Fs)
    (hwf : ∀ e ∈ platforms, e.2.size.isSome ∧ e.2.checksum.isSome) :
    (runTasks hashFn version platforms oracle fs).2.1 = none ∧
    (runTasks hashFn version platforms oracle fs).1.map (fun r => r.platform) =
      platforms.map Prod.fst := by
  induction platforms generalizing fs with
  | nil => simp [runTasks]
  | cons e rest ih =>
    obtain ⟨platform, info⟩ := e
    obtain ⟨r, fs', hdone, hplat⟩ := download_platform_done hashFn version
      platform info (oracle platform) fs
      (hwf _ (List.mem_cons_self _ _)).1 (hwf _ (List.mem_cons_self _ _)).2
    have := ih fs' (fun e he => hwf e (List.mem_cons_of_mem _ he))
    simp only [runTasks, hdone]
    simp [this.1, this.2, hplat]

/-- The fan-out only writes below the tasks' destination paths. -/
theorem runTasks_frame (hashFn : Bytes → String) (version : String)
    (platforms : List (String × RawPlatformInfo))
    (oracle : String → Nat → AttemptResult) (fs : Fs) (q : String)
    (hq : ∀ e ∈ platforms, q ≠ outputPath version e.1) :
    (runTasks hashFn version platforms oracle fs).2.2 q = fs q := by
  induction platforms generalizing fs with
  | nil => simp [runTasks]
  | cons e rest ih =>
    obtain ⟨platform, info⟩ := e
    have hfr := download_platform_frame hashFn version platform info
      (oracle platform) fs q (hq _ (List.mem_cons_self _ _))
    simp only [runTasks]
    cases hdp : download_platform hashFn version platform info
        (oracle platform) fs with
    | raised msg fs1 =>
      rw [hdp] at hfr
      simpa [TaskRun.fsOf] using hfr
    | done r fs1 =>
      rw [hdp] at hfr
      simp only [TaskRun.fsOf] at hfr
      simp only []
      rw [ih fs1 (fun e he => hq e (List.mem_cons_of_mem _ he))]
      exact hfr

/-! ## Claim theorems -/

/-- **C1.** For every manifest (well-formed per the data model: every
platform entry carries `size` and `checksum`), the download pipeline
produces exactly one `DownloadOutcome` per platform key of
`manifest.platforms` — the result list's key sequence is exactly the
manifest's key sequence, so with the (automatic, since Python dicts cannot
repeat keys) uniqueness of manifest keys no key is missing an outcome and no
key receives two — and `totalCount` equals the number of platform keys. -/
theorem c1_one_outcome_per_platform (hashFn : Bytes → String) (version : String)
    (manifest : RawManifest) (platforms : List (String × RawPlatformInfo))
    (oracle : String → Nat → AttemptResult) (fs : Fs)
    (hps : manifest.platforms = some platforms)
    (hwf : ∀ e ∈ platforms, e.2.size.isSome ∧ e.2.checksum.isSome) :
    (download_all_platforms hashFn version manifest oracle fs).raised = none ∧
    (download_all_platforms hashFn version manifest oracle fs).results.map
      (fun r => r.platform) = platforms.map Prod.fst ∧
    (download_all_platforms hashFn version manifest oracle fs).totalCount =
      platforms.length := by
  have h := runTasks_platforms hashFn version platforms oracle fs hwf
  rcases hrt : runTasks hashFn version platforms oracle fs with ⟨completed, err, fs1⟩
  rw [hrt] at h
  simp only at h
  obtain ⟨herr, hmap⟩ := h
  subst herr
  have hlen : completed.length = platforms.length := by
    have := congrArg List.length hmap
    simpa using this
  simp [download_all_platforms, hps, hrt, hmap, hlen]

def demoHash (b : Bytes) : String :=
  "h" ++ toString (b.foldl (fun a x => a + x) 0)

def demoPlats : List (String × RawPlatformInfo) :=
  [("darwin-arm64", ⟨some 3, some "h6"⟩), ("linux-x64", ⟨some 3, some "h6"⟩)]

def demoManifest : RawManifest := ⟨some "1.0", some "2024-01-01", some demoPlats⟩

def demoOracleOk : String → Nat → AttemptResult := fun _ _ => .ok [1, 2, 3]

theorem c1_one_outcome_per_platform_witness :
    (download_all_platforms demoHash "1.0" demoManifest demoOracleOk
      emptyFs).raised = none ∧
    (download_all_platforms demoHash "1.0" demoManifest demoOracleOk
      emptyFs).results.map (fun r => r.platform) = demoPlats.map Prod.fst ∧
    (download_all_platforms demoHash "1.0" demoManifest demoOracleOk
      emptyFs).totalCount = demoPlats.length :=
  c1_one_outcome_per_platform demoHash "1.0" demoManifest demoPlats
    demoOracleOk emptyFs rfl (by decide)

/-- **C3.** The fetcher makes at most `MAX_RETRIES = 3` attempts; every
attempt that raises (connect, streaming or disk write) counts as one failed
attempt and is retried; the delays between consecutive attempts are all the
fixed `RETRY_DELAY = 2` (one per retry — no exponential backoff); each new
attempt reopens the destination in truncate mode, so on success the file
holds exactly the successful attempt's content, with every earlier partial
overwritten; and if all 3 attempts fail the fetch returns failure. -/
theorem c3_retry_policy (oracle : Nat → AttemptResult) (path : String)
    (fs : Fs) (k : Nat) (c : Bytes) :
    (download_file_with_progress oracle path fs).attempts ≤ MAX_RETRIES ∧
    (download_file_with_progress oracle path fs).sleeps =
      List.replicate ((download_file_with_progress oracle path fs).attempts - 1)
        RETRY_DELAY ∧
    ((List.range MAX_RETRIES).all (fun i => (oracle i).failed) = true →
      (download_file_with_progress oracle path fs).success = false ∧
      (download_file_with_progress oracle path fs).attempts = MAX_RETRIES) ∧
    ((download_file_with_progress oracle path fs).success = true →
      (oracle ((download_file_with_progress oracle path fs).attempts - 1)).failed
          = false ∧
      (download_file_with_progress oracle path fs).fs path =
        some (.bin ((oracle ((download_file_with_progress oracle path
          fs).attempts - 1)).content))) ∧
    (k < MAX_RETRIES →
      (List.range k).all (fun i => (oracle i).failed) = true →
      oracle k = .ok c →
      (download_file_with_progress oracle path fs).success = true ∧
      (download_file_with_progress oracle path fs).attempts = k + 1 ∧
      (download_file_with_progress oracle path fs).fs path = some (.bin c)) := by
  refine ⟨?_, ?_, ?_, ?_, ?_⟩
  · exact fetchAttempts_le oracle path 0 MAX_RETRIES fs
  · have h := fetchAttempts_sleeps oracle path 0 MAX_RETRIES fs
    rw [List.eq_replicate_iff]
    exact ⟨h.2, h.1⟩
  · intro hall
    rw [List.all_eq_true] at hall
    refine fetchAttempts_allFail oracle path 0 MAX_RETRIES fs ?_
    intro i h0 hi
    exact hall i (List.mem_range.mpr (by omega))
  · intro hs
    obtain ⟨c', hc1, hc2⟩ := fetchAttempts_success oracle path 0 MAX_RETRIES fs hs
    rw [Nat.zero_add] at hc1
    rw [download_file_with_progress, hc1]
    exact ⟨rfl, hc2⟩
  · intro hk hfail hok
    rw [List.all_eq_true] at hfail
    refine fetchAttempts_firstOk oracle path MAX_RETRIES fs k c 0 hk ?_ ?_
    · intro i hi
      rw [Nat.zero_add]
      exact hfail i (List.mem_range.mpr hi)
    · rw [Nat.zero_add]
      exact hok

def demoOracleRetry : Nat → AttemptResult :=
  fun i => if i = 0 then .streamFail [9] else .ok [5]

theorem c3_retry_policy_witness :
    (download_file_with_progress demoOracleRetry "releases/1.0/claude-linux-x64"
      emptyFs).success = true ∧
    (download_file_with_progress demoOracleRetry "releases/1.0/claude-linux-x64"
      emptyFs).attempts = 1 + 1 ∧
    (download_file_with_progress demoOracleRetry "releases/1.0/claude-linux-x64"
      emptyFs).fs "releases/1.0/claude-linux-x64" = some (.bin [5]) :=
  (c3_retry_policy demoOracleRetry "releases/1.0/claude-linux-x64" emptyFs
    1 [5]).2.2.2.2 (by decide) (by decide) (by decide)

/-- **C8.** The verifier's streaming checksum is a pure function of the
file's bytes: the digest computed by streaming 8 KiB chunks equals the
digest of the whole content (for every digest function — in particular for
the reference SHA-256), and verification of the same file bytes against the
same expected checksum always gives the same result (re-verifying an
unchanged file reproduces the same Success). -/
theorem c8_checksum_pure (hashFn : Bytes → String) (b : Bytes)
    (fs1 fs2 : Fs) (path expected : String) (h : fs1 path = fs2 path) :
    calculate_sha256 hashFn b = hashFn b ∧
    verifyFile hashFn fs1 path expected = verifyFile hashFn fs2 path expected := by
  refine ⟨calculate_sha256_eq hashFn b, ?_⟩
  rw [verifyFile, verifyFile, readFile, readFile, h]

theorem c8_checksum_pure_witness :
    calculate_sha256 demoHash [1, 2, 3] = demoHash [1, 2, 3] ∧
    verifyFile demoHash (writeFs "releases/1.0/claude-linux-x64" (.bin [1, 2])
        emptyFs) "releases/1.0/claude-linux-x64" "H3" =
      verifyFile demoHash (writeFs "releases/1.0/claude-linux-x64" (.bin [1, 2])
        emptyFs) "releases/1.0/claude-linux-x64" "H3" :=
  c8_checksum_pure demoHash [1, 2, 3] _ _ "releases/1.0/claude-linux-x64" "H3" rfl

/-- **C9.** The platform table maps exactly as listed; a key outside the
table falls back to the generic remote binary name (`claude` /
`claude.exe`); the remote binary name is `claude.exe` for the Windows
platform key and `claude` for the six others; and the artifact lands at
`releases/{version}/{outputFilename}`. -/
theorem c9_platform_table (version key : String)
    (hunknown : PLATFORMS.lookup key = none) :
    PLATFORMS.lookup "darwin-arm64" = some "claude-darwin-arm64" ∧
    PLATFORMS.lookup "darwin-x64" = some "claude-darwin-x64" ∧
    PLATFORMS.lookup "linux-arm64" = some "claude-linux-arm64" ∧
    PLATFORMS.lookup "linux-x64" = some "claude-linux-x64" ∧
    PLATFORMS.lookup "linux-arm64-musl" = some "claude-linux-arm64-musl" ∧
    PLATFORMS.lookup "linux-x64-musl" = some "claude-linux-x64-musl" ∧
    PLATFORMS.lookup "win32-x64" = some "claude-win32-x64.exe" ∧
    outputFilename key = remoteFilename key ∧
    (remoteFilename key = "claude" ∨ remoteFilename key = "claude.exe") ∧
    remoteFilename "win32-x64" = "claude.exe" ∧
    remoteFilename "darwin-arm64" = "claude" ∧
    remoteFilename "darwin-x64" = "claude" ∧
    remoteFilename "linux-arm64" = "claude" ∧
    remoteFilename "linux-x64" = "claude" ∧
    remoteFilename "linux-arm64-musl" = "claude" ∧
    remoteFilename "linux-x64-musl" = "claude" ∧
    outputPath version key = "releases/" ++ version ++ "/" ++ outputFilename key := by
  refine ⟨by decide, by decide, by decide, by decide, by decide, by decide,
    by decide, ?_, ?_, by decide, by decide, by decide, by decide, by decide,
    by decide, by decide, rfl⟩
  · rw [outputFilename, hunknown, Option.getD_none]
  · rw [remoteFilename]
    by_cases h : strContainsSub key "win32"
    · rw [if_pos h]
      right
      rfl
    · rw [if_neg h]
      left
      rfl

theorem c9_platform_table_witness :
    PLATFORMS.lookup "darwin-arm64" = some "claude-darwin-arm64" ∧
    PLATFORMS.lookup "darwin-x64" = some "claude-darwin-x64" ∧
    PLATFORMS.lookup "linux-arm64" = some "claude-linux-arm64" ∧
    PLATFORMS.lookup "linux-x64" = some "claude-linux-x64" ∧
    PLATFORMS.lookup "linux-arm64-musl" = some "claude-linux-arm64-musl" ∧
    PLATFORMS.lookup "linux-x64-musl" = some "claude-linux-x64-musl" ∧
    PLATFORMS.lookup "win32-x64" = some "claude-win32-x64.exe" ∧
    outputFilename "sparc-solaris" = remoteFilename "sparc-solaris" ∧
    (remoteFilename "sparc-solaris" = "claude" ∨
      remoteFilename "sparc-solaris" = "claude.exe") ∧
    remoteFilename "win32-x64" = "claude.exe" ∧
    remoteFilename "darwin-arm64" = "claude" ∧
    remoteFilename "darwin-x64" = "claude" ∧
    remoteFilename "linux-arm64" = "claude" ∧
    remoteFilename "linux-x64" = "claude" ∧
    remoteFilename "linux-arm64-musl" = "claude" ∧
    remoteFilename "linux-x64-musl" = "claude" ∧
    outputPath "1.0" "sparc-solaris" =
      "releases/" ++ "1.0" ++ "/" ++ outputFilename "sparc-solaris" :=
  c9_platform_table "1.0" "sparc-solaris" (by decide)

/-- **C6.** With concurrency capacity `k` (the script ships
`SEMAPHORE_LIMIT = 7`) and any number of tasks, every scheduler state
reachable from the all-pending start has at most `k` tasks simultaneously
inside the semaphore-guarded fetch+verify body: each task acquires a permit
before entering the body and releases it on completion — normal or by
exception (`async with`). -/
theorem c6_semaphore_bound (k n : Nat) (ts : List TaskState)
    (h : Relation.ReflTransGen (SchedStep k) (List.replicate n .pending) ts) :
    countRunning ts ≤ k ∧ SEMAPHORE_LIMIT = 7 :=
  ⟨countRunning_le k n ts h, rfl⟩

theorem c6_semaphore_bound_witness :
    countRunning ((List.replicate 9 TaskState.pending).set 0
      TaskState.running) ≤ 7 ∧ SEMAPHORE_LIMIT = 7 :=
  c6_semaphore_bound 7 9 _ (Relation.ReflTransGen.single
    (SchedStep.acquire _ 0 (by decide) (by decide)))

theorem readFile_write (path : String) (b : Bytes) (fs : Fs) :
    readFile (writeFs path (.bin b) fs) path = b := by
  simp [readFile, writeFs]

/-- A fetch whose first attempt succeeds returns immediately with the file
written. -/
theorem fetch_ok0 (oracle : Nat → AttemptResult) (path : String) (fs : Fs)
    (c : Bytes) (h : oracle 0 = .ok c) :
    download_file_with_progress oracle path fs =
      ⟨true, writeFs path (.bin c) fs, 1, []⟩ := by
  rw [download_file_with_progress, MAX_RETRIES]
  simp [fetchAttempts, h]

/-- A fetch all of whose attempts fail at connect returns failure with the
filesystem untouched. -/
theorem fetch_connectFail (oracle : Nat → AttemptResult) (path : String)
    (fs : Fs) (h : ∀ i, oracle i = .connectFail) :
    (download_file_with_progress oracle path fs).success = false ∧
    (download_file_with_progress oracle path fs).fs = fs := by
  refine ⟨?_, fetchAttempts_connectFail_fs oracle path 0 MAX_RETRIES fs h⟩
  exact (fetchAttempts_allFail oracle path 0 MAX_RETRIES fs
    (fun i _ _ => by rw [h i]; rfl)).1

/-- A task whose every fetch attempt fails at connect ends as FetchFailed
with the filesystem untouched. -/
theorem download_platform_connectFail (hashFn : Bytes → String)
    (version platform : String) (sz : Nat) (ck : String)
    (oracle : Nat → AttemptResult) (fs : Fs)
    (h : ∀ i, oracle i = .connectFail) :
    download_platform hashFn version platform ⟨some sz, some ck⟩ oracle fs =
      .done ⟨.fetchFailed, platform, "下载失败: " ++ outputFilename platform⟩ fs := by
  rw [download_platform]
  simp only
  have hf := fetch_connectFail oracle (outputPath version platform) fs h
  rw [if_pos hf.1, hf.2]

/-- A task whose first fetch attempt delivers content hashing to the
expected checksum (case-insensitively) ends as Success with exactly that
content on disk. -/
theorem download_platform_ok (hashFn : Bytes → String)
    (version platform : String) (sz : Nat) (ck : String) (c : Bytes)
    (oracle : Nat → AttemptResult) (fs : Fs)
    (hok : oracle 0 = .ok c)
    (hmatch : strLower (hashFn c) = strLower ck) :
    download_platform hashFn version platform ⟨some sz, some ck⟩ oracle fs =
      .done ⟨.success, platform, hashFn c ++ "  " ++ outputFilename platform⟩
        (writeFs (outputPath version platform) (.bin c) fs) := by
  rw [download_platform]
  simp only
  rw [fetch_ok0 oracle (outputPath version platform) fs c hok]
  simp only [readFile_write, calculate_sha256_eq]
  rw [if_neg (by simp)]
  rw [if_pos (by simp [hmatch])]

/-- **C2.** Scenario B: a manifest with two platforms where the first
platform's network fetch fails on all 3 attempts (the request itself raises
each time) and the second platform's fetch succeeds with content verifying
against its checksum.  The outcomes are FetchFailed and Success in that
order, `successCount = 1`, `totalCount = 2`, `sys.exit(1)` fires (the
process exits non-zero), and only the second platform's file exists under
`releases/{version}/` — the failed platform's destination path holds no
file. -/
theorem c2_mixed_outcome_scenario (hashFn : Bytes → String)
    (version bd : String) (szA szB : Nat) (ckA ckB : String) (cB : Bytes)
    (oracle : String → Nat → AttemptResult) (fs0 : Fs)
    (hA : ∀ i, oracle "darwin-arm64" i = .connectFail)
    (hB : oracle "linux-x64" 0 = .ok cB)
    (hmatch : strLower (hashFn cB) = strLower ckB)
    (hfs : fs0 (outputPath version "darwin-arm64") = none) :
    (download_all_platforms hashFn version
        ⟨some version, some bd, some
          [("darwin-arm64", ⟨some szA, some ckA⟩),
           ("linux-x64", ⟨some szB, some ckB⟩)]⟩ oracle fs0).results.map
      (fun r => r.status) = [Status.fetchFailed, Status.success] ∧
    (download_all_platforms hashFn version
        ⟨some version, some bd, some
          [("darwin-arm64", ⟨some szA, some ckA⟩),
           ("linux-x64", ⟨some szB, some ckB⟩)]⟩ oracle fs0).successCount = 1 ∧
    (download_all_platforms hashFn version
        ⟨some version, some bd, some
          [("darwin-arm64", ⟨some szA, some ckA⟩),
           ("linux-x64", ⟨some szB, some ckB⟩)]⟩ oracle fs0).totalCount = 2 ∧
    (download_all_platforms hashFn version
        ⟨some version, some bd, some
          [("darwin-arm64", ⟨some szA, some ckA⟩),
           ("linux-x64", ⟨some szB, some ckB⟩)]⟩ oracle fs0).sysExit = some 1 ∧
    (download_all_platforms hashFn version
        ⟨some version, some bd, some
          [("darwin-arm64", ⟨some szA, some ckA⟩),
           ("linux-x64", ⟨some szB, some ckB⟩)]⟩ oracle fs0).fs
      (outputPath version "linux-x64") = some (.bin cB) ∧
    (download_all_platforms hashFn version
        ⟨some version, some bd, some
          [("darwin-arm64", ⟨some szA, some ckA⟩),
           ("linux-x64", ⟨some szB, some ckB⟩)]⟩ oracle fs0).fs
      (outputPath version "darwin-arm64") = none := by
  have hpaths : outputPath version "darwin-arm64" ≠ outputPath version "linux-x64" := by
    apply outputPath_ne_of_filename_ne
    decide
  have hdpA := download_platform_connectFail hashFn version "darwin-arm64"
    szA ckA (oracle "darwin-arm64") fs0 hA
  have hdpB := download_platform_ok hashFn version "linux-x64" szB ckB cB
    (oracle "linux-x64") fs0 hB hmatch
  have hrt : runTasks hashFn version
      [("darwin-arm64", ⟨some szA, some ckA⟩),
       ("linux-x64", ⟨some szB, some ckB⟩)] oracle fs0 =
      ([⟨.fetchFailed, "darwin-arm64", "下载失败: " ++ outputFilename "darwin-arm64"⟩,
        ⟨.success, "linux-x64", hashFn cB ++ "  " ++ outputFilename "linux-x64"⟩],
       none, writeFs (outputPath version "linux-x64") (.bin cB) fs0) := by
    rw [runTasks, hdpA]
    simp only
    rw [runTasks, hdpB]
    simp only
    rw [runTasks]
  simp only [download_all_platforms, Option.getD_some, hrt]
  refine ⟨by simp, by simp [Status.toBool], by simp, ?_, ?_, ?_⟩
  · simp [Status.toBool]
  · exact writeFs_self _ _ _
  · rw [writeFs_other _ _ _ _ hpaths]
    exact hfs

def demoOracleAB : String → Nat → AttemptResult :=
  fun p _ => if p = "darwin-arm64" then .connectFail else .ok [1, 2, 3]

def demoManifestAB : RawManifest :=
  ⟨some "1.0", some "2024-01-01", some
    [("darwin-arm64", ⟨some 3, some "badcafe"⟩),
     ("linux-x64", ⟨some 3, some "H6"⟩)]⟩

theorem c2_mixed_outcome_scenario_witness :
    (download_all_platforms demoHash "1.0"
        ⟨some "1.0", some "2024-01-01", some
          [("darwin-arm64", ⟨some 3, some "badcafe"⟩),
           ("linux-x64", ⟨some 3, some "H6"⟩)]⟩ demoOracleAB emptyFs).results.map
      (fun r => r.status) = [Status.fetchFailed, Status.success] ∧
    (download_all_platforms demoHash "1.0"
        ⟨some "1.0", some "2024-01-01", some
          [("darwin-arm64", ⟨some 3, some "badcafe"⟩),
           ("linux-x64", ⟨some 3, some "H6"⟩)]⟩ demoOracleAB
      emptyFs).successCount = 1 ∧
    (download_all_platforms demoHash "1.0"
        ⟨some "1.0", some "2024-01-01", some
          [("darwin-arm64", ⟨some 3, some "badcafe"⟩),
           ("linux-x64", ⟨some 3, some "H6"⟩)]⟩ demoOracleAB
      emptyFs).totalCount = 2 ∧
    (download_all_platforms demoHash "1.0"
        ⟨some "1.0", some "2024-01-01", some
          [("darwin-arm64", ⟨some 3, some "badcafe"⟩),
           ("linux-x64", ⟨some 3, some "H6"⟩)]⟩ demoOracleAB
      emptyFs).sysExit = some 1 ∧
    (download_all_platforms demoHash "1.0"
        ⟨some "1.0", some "2024-01-01", some
          [("darwin-arm64", ⟨some 3, some "badcafe"⟩),
           ("linux-x64", ⟨some 3, some "H6"⟩)]⟩ demoOracleAB emptyFs).fs
      (outputPath "1.0" "linux-x64") = some (.bin [1, 2, 3]) ∧
    (download_all_platforms demoHash "1.0"
        ⟨some "1.0", some "2024-01-01", some
          [("darwin-arm64", ⟨some 3, some "badcafe"⟩),
           ("linux-x64", ⟨some 3, some "H6"⟩)]⟩ demoOracleAB emptyFs).fs
      (outputPath "1.0" "darwin-arm64") = none :=
  c2_mixed_outcome_scenario demoHash "1.0" "2024-01-01" 3 3 "badcafe" "H6" [1, 2, 3]
    demoOracleAB emptyFs (fun _ => rfl) (by decide) (by decide) rfl

/-- If no task raised and some completed task is not a success, the
aggregation's `success_count < total_count` comparison fires `sys.exit(1)`. -/
theorem download_all_exit_on_failure (hashFn : Bytes → String)
    (version : String) (manifest : RawManifest)
    (oracle : String → Nat → AttemptResult) (fs : Fs) (r : TaskResult)
    (har : (download_all_platforms hashFn version manifest oracle fs).raised = none)
    (hmem : r ∈ (download_all_platforms hashFn version manifest oracle fs).results)
    (hr : r.status.toBool = false) :
    (download_all_platforms hashFn version manifest oracle fs).sysExit = some 1 := by
  rcases hrt : runTasks hashFn version (manifest.platforms.getD []) oracle fs
    with ⟨completed, err, fs1⟩
  cases err with
  | some msg =>
    rw [download_all_platforms, hrt] at har
    simp at har
  | none =>
    rw [download_all_platforms, hrt] at hmem ⊢
    simp only at hmem ⊢
    have hlt : completed.countP (fun t => t.status.toBool) < completed.length := by
      have hle := List.countP_le_length (l := completed)
        (p := fun t => t.status.toBool)
      have hne : completed.countP (fun t => t.status.toBool) ≠ completed.length := by
        intro he
        have hsplit := List.length_eq_countP_add_countP
          (fun t => t.status.toBool) completed
        have hzero : completed.countP
            (fun t => decide ¬(t.status.toBool = true)) = 0 := by omega
        rw [List.countP_eq_zero] at hzero
        have := hzero r hmem
        simp [hr] at this
      omega
    rw [if_pos hlt]

/-- **C4.** For a successfully fetched artifact (content `c` on disk at the
destination) whose digest does not equal the expected checksum after
lower-casing both sides, the task returns the ChecksumMismatch outcome
carrying both the expected and the actual digest, the downloaded file is
deleted from disk, and — since the aggregate then contains a non-success
outcome — the orchestrator calls `sys.exit(1)`, a non-zero process exit.
(The comparison hypothesis is on the lower-cased strings, which is exactly
the comparison the code performs.) -/
theorem c4_checksum_mismatch (hashFn : Bytes → String)
    (version key : String) (sz : Nat) (expected : String) (c : Bytes)
    (oracle : Nat → AttemptResult) (fs0 : Fs)
    (manifest : RawManifest) (oracle2 : String → Nat → AttemptResult)
    (fs1 : Fs) (r : TaskResult)
    (hsucc : (download_file_with_progress oracle (outputPath version key)
      fs0).success = true)
    (hc : (download_file_with_progress oracle (outputPath version key) fs0).fs
      (outputPath version key) = some (.bin c))
    (hmis : strLower (hashFn c) ≠ strLower expected)
    (har : (download_all_platforms hashFn version manifest oracle2 fs1).raised
      = none)
    (hmem : r ∈ (download_all_platforms hashFn version manifest oracle2
      fs1).results)
    (hr : r.status.toBool = false) :
    download_platform hashFn version key ⟨some sz, some expected⟩ oracle fs0 =
      .done ⟨.checksumMismatch expected (hashFn c), key,
          "校验失败: " ++ outputFilename key⟩
        (eraseFs (outputPath version key)
          (download_file_with_progress oracle (outputPath version key) fs0).fs) ∧
    (download_platform hashFn version key ⟨some sz, some expected⟩ oracle
      fs0).fsOf (outputPath version key) = none ∧
    (download_all_platforms hashFn version manifest oracle2 fs1).sysExit =
      some 1 := by
  have hread : readFile (download_file_with_progress oracle
      (outputPath version key) fs0).fs (outputPath version key) = c := by
    rw [readFile, hc]
  have hdp : download_platform hashFn version key ⟨some sz, some expected⟩
      oracle fs0 =
      .done ⟨.checksumMismatch expected (hashFn c), key,
          "校验失败: " ++ outputFilename key⟩
        (eraseFs (outputPath version key)
          (download_file_with_progress oracle (outputPath version key)
            fs0).fs) := by
    rw [download_platform]
    simp only
    rw [if_neg (by rw [hsucc]; simp)]
    simp only [hread, calculate_sha256_eq]
    rw [if_neg (by simp [hmis])]
  refine ⟨hdp, ?_, download_all_exit_on_failure hashFn version manifest
    oracle2 fs1 r har hmem hr⟩
  rw [hdp]
  simp only [TaskRun.fsOf]
  exact eraseFs_self _ _

def demoOracle1 : Nat → AttemptResult := fun _ => .ok [1, 2, 3]

def demoManifestBad : RawManifest :=
  ⟨some "1.0", some "2024-01-01", some [("linux-x64", ⟨some 3, some "deadbeef"⟩)]⟩

def demoMismatchResult : TaskResult :=
  ⟨.checksumMismatch "deadbeef" "h6", "linux-x64", "校验失败: claude-linux-x64"⟩

theorem c4_checksum_mismatch_witness :
    download_platform demoHash "1.0" "linux-x64" ⟨some 3, some "deadbeef"⟩
        demoOracle1 emptyFs =
      .done ⟨.checksumMismatch "deadbeef" (demoHash [1, 2, 3]), "linux-x64",
          "校验失败: " ++ outputFilename "linux-x64"⟩
        (eraseFs (outputPath "1.0" "linux-x64")
          (download_file_with_progress demoOracle1 (outputPath "1.0" "linux-x64")
            emptyFs).fs) ∧
    (download_platform demoHash "1.0" "linux-x64" ⟨some 3, some "deadbeef"⟩
      demoOracle1 emptyFs).fsOf (outputPath "1.0" "linux-x64") = none ∧
    (download_all_platforms demoHash "1.0" demoManifestBad demoOracleOk
      emptyFs).sysExit = some 1 :=
  c4_checksum_mismatch demoHash "1.0" "linux-x64" 3 "deadbeef" [1, 2, 3]
    demoOracle1 emptyFs demoManifestBad demoOracleOk emptyFs
    demoMismatchResult (by decide) (by decide) (by decide) (by decide)
    (by decide) (by decide)

/-- **C7 (counterexample).** The claim says a blank body (after trimming)
fails with `EmptyResponseError` and a non-2xx response fails with
`NetworkError`.  The code has no blank-body check at all — a whitespace-only
body resolves to the empty version string — and `raise_for_status()` only
fires for status ≥ 400, so e.g. a 304 response is returned as a success. -/
theorem c7_counterexample :
    get_latest_version (HttpResp.status 200 "   ") = Except.ok "" ∧
    get_latest_version (HttpResp.status 304 "3.2.1") = Except.ok "3.2.1" := by
  constructor <;> rfl

/-- **C7 (amended).** Resolving the latest version issues one request to the
discovery endpoint, fails with `NetworkError` on transport failure or on a
response with HTTP status ≥ 400 (the `raise_for_status` threshold), and
otherwise returns the trimmed body as the version string — even when the
trimmed body is empty (no `EmptyResponseError` exists). -/
theorem c7_resolve_latest (code : Nat) (body : String) :
    get_latest_version HttpResp.transportError = Except.error PyErr.networkError ∧
    (400 ≤ code → get_latest_version (HttpResp.status code body) =
      Except.error PyErr.networkError) ∧
    (code < 400 → get_latest_version (HttpResp.status code body) =
      Except.ok (strStrip body)) := by
  refine ⟨rfl, ?_, ?_⟩
  · intro h
    rw [get_latest_version, if_pos h]
  · intro h
    rw [get_latest_version, if_neg (by omega)]

theorem c7_resolve_latest_witness :
    get_latest_version HttpResp.transportError = Except.error PyErr.networkError ∧
    (400 ≤ 200 → get_latest_version (HttpResp.status 200 " 1.0 ") =
      Except.error PyErr.networkError) ∧
    (200 < 400 → get_latest_version (HttpResp.status 200 " 1.0 ") =
      Except.ok (strStrip " 1.0 ")) :=
  c7_resolve_latest 200 " 1.0 "

/-- The field checks `get_manifest` actually performs on a decoded manifest:
`version`, `buildDate` and `platforms` must be present, and every platform
entry must carry `size`.  (Stated from the spec's words for comparison with
the embedded `get_manifest`; note the spec additionally demands `checksum`
here, which the code does not check at this point.) -/
def manifestFieldsChecked (m : RawManifest) : Bool :=
  m.version.isSome && m.buildDate.isSome &&
    (match m.platforms with
     | none => false
     | some ps => ps.all (fun e => e.2.size.isSome))

theorem checkSizes_ok (ps : List (String × RawPlatformInfo)) :
    checkSizes ps = .ok () ↔ ps.all (fun e => e.2.size.isSome) = true := by
  induction ps with
  | nil => simp [checkSizes]
  | cons e rest ih =>
    obtain ⟨k, info⟩ := e
    cases hsz : info.size with
    | none => simp [checkSizes, hsz]
    | some sz => simp [checkSizes, hsz, ih]

theorem checkSizes_err (ps : List (String × RawPlatformInfo))
    (h : ¬checkSizes ps = .ok ()) : checkSizes ps = .error .malformedManifest := by
  induction ps with
  | nil => simp [checkSizes] at h
  | cons e rest ih =>
    obtain ⟨k, info⟩ := e
    cases hsz : info.size with
    | none => simp [checkSizes, hsz]
    | some sz =>
      rw [checkSizes, hsz] at h ⊢
      exact ih h

def demoDec : Bytes → String := fun _ => ""

def demoManifestNoCk : RawManifest :=
  ⟨some "1.0", some "2024-01-01", some [("linux-x64", ⟨some 3, none⟩)]⟩

/-- **C5 (counterexample).** A manifest whose platform entry lacks
`checksum` — which the claim says makes manifest fetching fail before any
download task is created and before any file is written — is accepted by
`get_manifest` unchanged; the run then downloads the platform's file to disk
and only afterwards dies (with `KeyError` at the verification step), exiting
1 with the downloaded file still present. -/
theorem c5_counterexample :
    get_manifest (HttpResp.status 200 demoManifestNoCk) =
      Except.ok demoManifestNoCk ∧
    (main_async demoHash demoDec (HttpResp.status 200 "1.0")
      (HttpResp.status 200 demoManifestNoCk) demoOracleOk demoOracle1
      emptyFs).exitCode = 1 ∧
    (main_async demoHash demoDec (HttpResp.status 200 "1.0")
      (HttpResp.status 200 demoManifestNoCk) demoOracleOk demoOracle1
      emptyFs).fs (outputPath "1.0" "linux-x64") = some (.bin [1, 2, 3]) := by
  refine ⟨rfl, ?_, ?_⟩ <;> decide

/-- **C5 (amended).** `get_manifest` fails (with the `KeyError` playing the
spec's `MalformedManifestError` role) exactly when `version`, `buildDate` or
`platforms` is absent or some platform entry lacks `size`; such a failure
aborts the run before any download task is created and before any file is
written (exit 1, filesystem untouched — Scenario D).  A platform entry
lacking `checksum` is *not* rejected here: it is only detected inside that
platform's task, after its file has been downloaded (see the
counterexample). -/
theorem c5_manifest_validation (m : RawManifest) (hashFn : Bytes → String)
    (dec : Bytes → String) (latestResp : HttpResp String)
    (oracle : String → Nat → AttemptResult) (chOracle : Nat → AttemptResult)
    (fs0 : Fs) (version : String)
    (hv : get_latest_version latestResp = .ok version) :
    (get_manifest (HttpResp.status 200 m) = .ok m ↔
      manifestFieldsChecked m = true) ∧
    (manifestFieldsChecked m = false →
      get_manifest (HttpResp.status 200 m) = .error .malformedManifest ∧
      main_async hashFn dec latestResp (HttpResp.status 200 m) oracle chOracle
        fs0 = ⟨1, fs0⟩) := by
  have hgm : get_manifest (HttpResp.status 200 m) =
      (match m.version with
       | none => .error .malformedManifest
       | some _ =>
         match m.buildDate with
         | none => .error .malformedManifest
         | some _ =>
           match m.platforms with
           | none => .error .malformedManifest
           | some ps =>
             match checkSizes ps with
             | .error e => .error e
             | .ok _ => .ok m) := by
    rw [get_manifest, if_neg (by omega)]
  constructor
  · rw [hgm, manifestFieldsChecked]
    cases hva : m.version with
    | none => simp
    | some v =>
      cases hbd : m.buildDate with
      | none => simp
      | some bd =>
        cases hps : m.platforms with
        | none => simp
        | some ps =>
          simp only [Option.isSome_some, Bool.true_and]
          cases hcs : checkSizes ps with
          | error e =>
            simp only
            constructor
            · intro h
              exact absurd h (by simp)
            · intro h
              rw [← checkSizes_ok ps] at h
              rw [h] at hcs
              exact absurd hcs (by simp)
          | ok u =>
            cases u
            simp only
            rw [← checkSizes_ok ps]
            simp [hcs]
  · intro hbad
    have herr : get_manifest (HttpResp.status 200 m) =
        .error .malformedManifest := by
      rw [hgm]
      rw [manifestFieldsChecked] at hbad
      cases hva : m.version with
      | none => rfl
      | some v =>
        cases hbd : m.buildDate with
        | none => rfl
        | some bd =>
          cases hps : m.platforms with
          | none => rfl
          | some ps =>
            rw [hva, hbd, hps] at hbad
            simp only [Option.isSome_some, Bool.true_and] at hbad
            have : ¬checkSizes ps = .ok () := by
              rw [checkSizes_ok, hbad]
              simp
            simp only [checkSizes_err ps this]
    refine ⟨herr, ?_⟩
    rw [main_async, hv]
    simp only [herr]

def demoManifestNoPlat : RawManifest := ⟨some "1.0", some "2024-01-01", none⟩

theorem c5_manifest_validation_witness :
    get_manifest (HttpResp.status 200 demoManifestNoPlat) =
      Except.error PyErr.malformedManifest ∧
    main_async demoHash demoDec (HttpResp.status 200 "1.0")
      (HttpResp.status 200 demoManifestNoPlat) demoOracleOk demoOracle1
      emptyFs = ⟨1, emptyFs⟩ :=
  (c5_manifest_validation demoManifestNoPlat demoHash demoDec
    (HttpResp.status 200 "1.0") demoOracleOk demoOracle1 emptyFs "1.0"
    rfl).2 (by decide)

theorem download_all_frame (hashFn : Bytes → String) (version : String)
    (manifest : RawManifest) (oracle : String → Nat → AttemptResult)
    (fs : Fs) (q : String)
    (hq : ∀ platform, q ≠ outputPath version platform) :
    (download_all_platforms hashFn version manifest oracle fs).fs q = fs q := by
  have hfr := runTasks_frame hashFn version (manifest.platforms.getD [])
    oracle fs q (fun e _ => hq e.1)
  rcases hrt : runTasks hashFn version (manifest.platforms.getD []) oracle fs
    with ⟨completed, err, fs1⟩
  rw [hrt] at hfr
  simp only at hfr
  rw [download_all_platforms, hrt]
  cases err with
  | some msg => exact hfr
  | none => exact hfr

theorem download_changelog_frame (chOracle : Nat → AttemptResult)
    (version : String) (fs : Fs) (q : String)
    (hq : q ≠ "releases/" ++ version ++ "/CHANGELOG.md") :
    (download_changelog chOracle version fs).2.2 q = fs q := by
  rw [download_changelog]
  exact fetchAttempts_frame chOracle _ 0 MAX_RETRIES fs q hq

/-- **C10.** When the whole per-platform download phase succeeds (no task
raised, `sys.exit(1)` did not fire) but the changelog download fails or the
changelog parses to zero entries, the process still exits with status 0 and
writes the `.version`, `.build_date` and `.checksums` state files, while
`.latest_updates` and `.release_notes` are left exactly as they were (not
written). -/
theorem c10_changelog_failure_tolerated (hashFn : Bytes → String)
    (dec : Bytes → String) (latestResp : HttpResp String)
    (manifestResp : HttpResp RawManifest)
    (oracle : String → Nat → AttemptResult) (chOracle : Nat → AttemptResult)
    (fs0 : Fs) (version : String) (manifest : RawManifest)
    (hv : get_latest_version latestResp = .ok version)
    (hm : get_manifest manifestResp = .ok manifest)
    (har : (download_all_platforms hashFn version manifest oracle fs0).raised
      = none)
    (hsys : (download_all_platforms hashFn version manifest oracle fs0).sysExit
      = none)
    (hch : (download_changelog chOracle version
        (download_all_platforms hashFn version manifest oracle fs0).fs).1
          = false ∨
      parse_changelog (dec (readFile
        (download_changelog chOracle version
          (download_all_platforms hashFn version manifest oracle fs0).fs).2.2
        (download_changelog chOracle version
          (download_all_platforms hashFn version manifest oracle fs0).fs).2.1))
        = []) :
    (main_async hashFn dec latestResp manifestResp oracle chOracle
      fs0).exitCode = 0 ∧
    (main_async hashFn dec latestResp manifestResp oracle chOracle fs0).fs
      ".version" = some (.text version) ∧
    (main_async hashFn dec latestResp manifestResp oracle chOracle fs0).fs
      ".build_date" = some (.text (manifest.buildDate.getD "")) ∧
    (main_async hashFn dec latestResp manifestResp oracle chOracle fs0).fs
      ".checksums" = some (.text (String.intercalate "\n"
        (download_all_platforms hashFn version manifest oracle
          fs0).checksums)) ∧
    (main_async hashFn dec latestResp manifestResp oracle chOracle fs0).fs
      ".latest_updates" = fs0 ".latest_updates" ∧
    (main_async hashFn dec latestResp manifestResp oracle chOracle fs0).fs
      ".release_notes" = fs0 ".release_notes" := by
  have hlu : (if (download_changelog chOracle version
      (download_all_platforms hashFn version manifest oracle fs0).fs).1 then
        (if (parse_changelog (dec (readFile
            (download_changelog chOracle version
              (download_all_platforms hashFn version manifest oracle
                fs0).fs).2.2
            (download_changelog chOracle version
              (download_all_platforms hashFn version manifest oracle
                fs0).fs).2.1))).isEmpty then ([] : List ChangelogEntry)
         else extract_latest_updates (parse_changelog (dec (readFile
            (download_changelog chOracle version
              (download_all_platforms hashFn version manifest oracle
                fs0).fs).2.2
            (download_changelog chOracle version
              (download_all_platforms hashFn version manifest oracle
                fs0).fs).2.1))) 3)
      else []) = [] := by
    rcases hch with hf | hp
    · rw [if_neg (by simp [hf])]
    · by_cases hc1 : (download_changelog chOracle version
          (download_all_platforms hashFn version manifest oracle fs0).fs).1
      · rw [if_pos hc1, if_pos (by simp [hp])]
      · rw [if_neg hc1]
  have hmain : main_async hashFn dec latestResp manifestResp oracle chOracle
      fs0 = ⟨0, save_version_info version (manifest.buildDate.getD "")
        (download_all_platforms hashFn version manifest oracle fs0).checksums
        []
        (download_changelog chOracle version
          (download_all_platforms hashFn version manifest oracle
            fs0).fs).2.2⟩ := by
    rw [main_async, hv]
    simp only [hm, har, hsys, hlu]
  have hsave : save_version_info version (manifest.buildDate.getD "")
      (download_all_platforms hashFn version manifest oracle fs0).checksums []
      (download_changelog chOracle version
        (download_all_platforms hashFn version manifest oracle fs0).fs).2.2 =
      writeFs ".checksums" (.text (String.intercalate "\n"
        (download_all_platforms hashFn version manifest oracle fs0).checksums))
        (writeFs ".build_date" (.text (manifest.buildDate.getD ""))
          (writeFs ".version" (.text version)
            (download_changelog chOracle version
              (download_all_platforms hashFn version manifest oracle
                fs0).fs).2.2)) := by
    rw [save_version_info]
    simp
  have hdot : ∀ q y, q = "." ++ y →
      (download_changelog chOracle version
        (download_all_platforms hashFn version manifest oracle fs0).fs).2.2 q
        = fs0 q := by
    intro q y hqy
    rw [download_changelog_frame chOracle version _ q
      (by rw [hqy]; exact Ne.symm (changelogPath_ne_dot version y))]
    exact download_all_frame hashFn version manifest oracle fs0 q
      (fun platform => by rw [hqy]; exact Ne.symm (outputPath_ne_dot version platform y))
  refine ⟨?_, ?_, ?_, ?_, ?_, ?_⟩
  · rw [hmain]
  · rw [hmain]
    simp only
    rw [hsave, writeFs_other _ _ _ _ (by decide), writeFs_other _ _ _ _ (by decide),
      writeFs_self]
  · rw [hmain]
    simp only
    rw [hsave, writeFs_other _ _ _ _ (by decide), writeFs_self]
  · rw [hmain]
    simp only
    rw [hsave, writeFs_self]
  · rw [hmain]
    simp only
    rw [hsave, writeFs_other _ _ _ _ (by decide), writeFs_other _ _ _ _ (by decide),
      writeFs_other _ _ _ _ (by decide)]
    exact hdot ".latest_updates" "latest_updates" (by decide)
  · rw [hmain]
    simp only
    rw [hsave, writeFs_other _ _ _ _ (by decide), writeFs_other _ _ _ _ (by decide),
      writeFs_other _ _ _ _ (by decide)]
    exact hdot ".release_notes" "release_notes" (by decide)

def demoOracleFail : Nat → AttemptResult := fun _ => .connectFail

theorem c10_changelog_failure_tolerated_witness :
    (main_async demoHash demoDec (HttpResp.status 200 "1.0")
      (HttpResp.status 200 demoManifest) demoOracleOk demoOracleFail
      emptyFs).exitCode = 0 ∧
    (main_async demoHash demoDec (HttpResp.status 200 "1.0")
      (HttpResp.status 200 demoManifest) demoOracleOk demoOracleFail
      emptyFs).fs ".version" = some (.text "1.0") ∧
    (main_async demoHash demoDec (HttpResp.status 200 "1.0")
      (HttpResp.status 200 demoManifest) demoOracleOk demoOracleFail
      emptyFs).fs ".build_date" = some (.text
        (demoManifest.buildDate.getD "")) ∧
    (main_async demoHash demoDec (HttpResp.status 200 "1.0")
      (HttpResp.status 200 demoManifest) demoOracleOk demoOracleFail
      emptyFs).fs ".checksums" = some (.text (String.intercalate "\n"
        (download_all_platforms demoHash "1.0" demoManifest demoOracleOk
          emptyFs).checksums)) ∧
    (main_async demoHash demoDec (HttpResp.status 200 "1.0")
      (HttpResp.status 200 demoManifest) demoOracleOk demoOracleFail
      emptyFs).fs ".latest_updates" = emptyFs ".latest_updates" ∧
    (main_async demoHash demoDec (HttpResp.status 200 "1.0")
      (HttpResp.status 200 demoManifest) demoOracleOk demoOracleFail
      emptyFs).fs ".release_notes" = emptyFs ".release_notes" :=
  c10_changelog_failure_tolerated demoHash demoDec (HttpResp.status 200 "1.0")
    (HttpResp.status 200 demoManifest) demoOracleOk demoOracleFail emptyFs
    "1.0" demoManifest rfl rfl (by decide) (by decide) (Or.inl (by decide))
